import Mathlib

/-!
Shallow embedding of the warc-gpt ingestion and vector-storage code
(`warc_gpt/commands/ingest.py`, `warc_gpt/utils/vector_storage/*`,
`warc_gpt/views/api.py`), with theorems checking the specification
claims against it.  Python strings are modelled by Lean `String`
(a list of characters, matching Python code-point semantics for the
operations used), Python floats by `ℚ`, and Python dicts by
association lists with Python lookup/update semantics.
-/

namespace WarcGpt

/-! ## Python string helpers -/

/-- Characters treated as whitespace by Python `str.split()` / `str.strip()`
(the ASCII whitespace characters). -/
def pyIsSpace (c : Char) : Bool :=
  c = ' ' || c = '\t' || c = '\n' || c = '\r' || c = '\x0b' || c = '\x0c'

/-- Helper for `pySplit`: accumulates the current word (reversed). -/
def pySplitAux : List Char → List Char → List (List Char)
  | [], acc => if acc = [] then [] else [acc.reverse]
  | c :: cs, acc =>
    if pyIsSpace c then
      if acc = [] then pySplitAux cs [] else acc.reverse :: pySplitAux cs []
    else pySplitAux cs (c :: acc)

/-- Python `s.split()` with no argument: split on whitespace runs, producing
no empty words. -/
def pySplit (s : String) : List (List Char) :=
  pySplitAux s.data []

/-- Python slice `s[n:]` (drop the first `n` characters). -/
def pySliceFrom (s : String) (n : Nat) : String :=
  ⟨s.data.drop n⟩

/-- Python `s.strip()` (remove leading and trailing whitespace). -/
def pyStrip (s : String) : String :=
  ⟨((s.data.dropWhile pyIsSpace).reverse.dropWhile pyIsSpace).reverse⟩

/-! ## Ingestion data model (`warc_gpt/commands/ingest.py`)

`WARC_RECORD_DATA` is a dict with six fixed keys; we model it as a
structure. -/

/-- Shape of the data extracted and stored from WARC records
(`WARC_RECORD_DATA` in `warc_gpt/__init__.py`). -/
structure RecordData where
  warc_filename : String
  warc_record_id : String
  warc_record_date : String
  warc_record_target_uri : String
  warc_record_content_type : String
  warc_record_text : String
  deriving DecidableEq, Repr

/-- Chunk ids built in `chunk_objects`
(`ids = [f recordId-(i+1) for i in chunk_range]`, ingest.py line 257). -/
def chunkIds (recordId : String) (numChunks : Nat) : List String :=
  (List.range numChunks).map (fun i => recordId ++ "-" ++ toString (i + 1))

/-- The four parallel lists handed to `chroma_collection.add`
(documents / ids / metadatas / embeddings). -/
structure AddBatch where
  documents : List String
  ids : List String
  metadatas : List RecordData
  embeddings : List (List ℚ)
  deriving DecidableEq, Repr

/-- Data part of `chunk_objects` (ingest.py lines 253-262): per-chunk
document label, id, metadata (record data with `warc_record_text`
replaced by the chunk text minus the configured chunk marker), and
embedding.  `textChunks` are the already-marked chunks (line 205),
`encode` models `embedding_model.encode` as an oracle. -/
def chunkObjectsData (rd : RecordData) (textChunks : List String) (chunkPfx : String)
    (encode : String → List ℚ) : AddBatch :=
  { documents := textChunks.map (fun _ => rd.warc_filename)
  , ids := chunkIds rd.warc_record_id textChunks.length
  , metadatas := textChunks.map
      (fun tc => { rd with warc_record_text := pySliceFrom tc chunkPfx.length })
  , embeddings := textChunks.map encode }

/-- Per-record body of the ingest loop after metadata extraction
(ingest.py lines 185-231): drop the record when its text is empty or has
fewer than 5 whitespace-delimited words (lines 188-192), strip the text
(line 194), split it into chunks (`split` models the external text
splitter, line 198), skip when there are no chunks (line 201), otherwise
prepend the configured chunk marker to every chunk (line 205) and build
the storage batch.  `none` means the record is skipped and nothing is
stored. -/
def processRecord (split : String → List String) (chunkPfx : String)
    (encode : String → List ℚ) (rd : RecordData) : Option AddBatch :=
  if rd.warc_record_text = "" then none
  else if (pySplit rd.warc_record_text).length < 5 then none
  else
    let rd2 := { rd with warc_record_text := pyStrip rd.warc_record_text }
    let textChunks := split rd2.warc_record_text
    if textChunks = [] then none
    else some (chunkObjectsData rd2 (textChunks.map (fun c => chunkPfx ++ c)) chunkPfx encode)

/-- The whole run over the (already filtered and qualified) record stream:
skipped records contribute nothing, each stored record contributes one
`add` batch, and the loop always continues with the next record. -/
def processAll (split : String → List String) (chunkPfx : String)
    (encode : String → List ℚ) (records : List RecordData) : List AddBatch :=
  records.filterMap (processRecord split chunkPfx encode)

/-! ## Python dicts (for Qdrant payloads)

Qdrant payloads are Python dicts with string keys; only string values
matter for the claims, so we use `List (String × String)` with Python
dict semantics: updating an existing key keeps its position, a new key
is appended, lookup finds the (unique) binding. -/

/-- Python dict as an association list. -/
abbrev PyDict := List (String × String)

/-- Python `d[k] = v` / the effect of merging a key into a dict literal:
overwrite in place when present, append when absent. -/
def pyDictSet (d : PyDict) (k v : String) : PyDict :=
  if d.any (fun p => p.1 == k) then
    d.map (fun p => if p.1 == k then (k, v) else p)
  else d ++ [(k, v)]

/-- Python `d.get(k)` / `d[k]` lookup (first binding for the key; dicts
built by `pyDictSet` hold at most one binding per key). -/
def pyDictLookup : PyDict → String → Option String
  | [], _ => none
  | p :: ps, k => if p.1 == k then some p.2 else pyDictLookup ps k

/-- The removal part of Python `d.pop(k)`. -/
def pyDictRemove (d : PyDict) (k : String) : PyDict :=
  d.filter (fun p => !(p.1 == k))

/-! ## Qdrant backend (`warc_gpt/utils/vector_storage/qdrant.py`) -/

/-- Reserved payload key holding the caller-supplied id. -/
def ID_KEY : String := "_id"

/-- Reserved payload key holding the caller-supplied document label. -/
def DOCUMENT_KEY : String := "_document"

/-- Page size used by `_scroll_points`. -/
def SCROLL_SIZE : Nat := 64

/-- A stored Qdrant point: physical point id (a UUID hex string generated
at insert time), vector, and payload. -/
structure QdrantPoint where
  pointId : String
  vector : List ℚ
  payload : PyDict
  deriving DecidableEq, Repr

/-- The payload built in `Qdrant.add` (line 38-41): the metadata dict
with the two reserved keys merged in last (so they win on collision). -/
def payloadFor (metadata : PyDict) (id doc : String) : PyDict :=
  pyDictSet (pyDictSet metadata ID_KEY id) DOCUMENT_KEY doc

/-- The points built by `Qdrant.add`: `zip` over documents/metadatas/ids
for the payloads (line 38-41) and a parallel list of fresh UUIDs as the
physical ids (line 45); like Python `zip`, truncates to the shortest. -/
def mkPoints : List String → List (List ℚ) → List PyDict → List String → List String →
    List QdrantPoint
  | doc :: docs, emb :: embs, meta :: metas, id :: ids, fid :: fids =>
    ⟨fid, emb, payloadFor meta id doc⟩ :: mkPoints docs embs metas ids fids
  | _, _, _, _, _ => []

/-- `Qdrant.add` (lines 30-50): upsert of freshly-identified points, which
for fresh UUIDs is an append to the collection. -/
def qdrantAdd (store : List QdrantPoint) (documents : List String)
    (embeddings : List (List ℚ)) (metadatas : List PyDict) (ids : List String)
    (freshIds : List String) : List QdrantPoint :=
  store ++ mkPoints documents embeddings metadatas ids freshIds

/-- The `StorageResponse` shape of `vector_storage/base.py`. -/
structure StorageResponse where
  ids : List String
  embeddings : List (List ℚ)
  documents : List String
  metadatas : List PyDict
  deriving DecidableEq, Repr

/-- Per-point body of the result loops of `Qdrant.get_all` / `Qdrant.search`
(lines 57-62 and 81-86): pop the two reserved keys out of a copy of the
payload; `none` models the `KeyError` raised when a reserved key is
absent. -/
def popPoint (p : QdrantPoint) : Option (String × String × PyDict × List ℚ) :=
  match pyDictLookup p.payload ID_KEY with
  | none => none
  | some id =>
    let rest := pyDictRemove p.payload ID_KEY
    match pyDictLookup rest DOCUMENT_KEY with
    | none => none
    | some doc => some (id, doc, pyDictRemove rest DOCUMENT_KEY, p.vector)

/-- The result loop of `Qdrant.get_all` / `Qdrant.search` over a list of
returned points. -/
def popResponse : List QdrantPoint → Option StorageResponse
  | [] => some ⟨[], [], [], []⟩
  | p :: ps =>
    match popPoint p, popResponse ps with
    | some (id, doc, meta, vec), some r =>
      some ⟨id :: r.ids, vec :: r.embeddings, doc :: r.documents, meta :: r.metadatas⟩
    | _, _ => none

/-- `Qdrant.get_all` (lines 52-69): `_scroll_points` yields every stored
point (claim C4 relates the scroll loop to this), then the reserved keys
are popped back out. -/
def qdrantGetAll (store : List QdrantPoint) : Option StorageResponse :=
  popResponse store

/-- The integer value of the Python boolean `True`, which `Qdrant.search`
passes as the `limit` argument of `client.search` (line 77). -/
def pyTrue : Nat := 1

/-- The external Qdrant service call `client.search`: returns the
collection points ranked similarity-descending under the collection
metric (`ranked` is that ranking), truncated to `limit` points. -/
def clientSearch (ranked : List QdrantPoint) (limit : Nat) : List QdrantPoint :=
  ranked.take limit

/-- `Qdrant.search` (lines 71-93): the numeric `limit` parameter is
ignored and the boolean `True` is passed to the service instead
(line 77, `limit=True`); the returned points then have the reserved
keys popped out. -/
def qdrantSearch (ranked : List QdrantPoint) (limit : Nat) : Option StorageResponse :=
  popResponse (clientSearch ranked pyTrue)

/-! ## Qdrant scroll pagination (`Qdrant._scroll_points`, lines 95-122) -/

/-- The `next_page_offset` discriminator returned by `client.scroll`:
the uniform `None`, a REST point-id cursor, or a grpc `PointId` record
with `num` and `uuid` fields. -/
inductive ScrollCursor where
  | nullCur : ScrollCursor
  | restId : String → ScrollCursor
  | grpcPid : Nat → String → ScrollCursor
  deriving DecidableEq, Repr

/-- The stop condition of the scroll loop (lines 114-118):
`next_offset is None or (isinstance(next_offset, grpc.PointId) and
next_offset.num == 0 and next_offset.uuid == emptystring)`. -/
def isSentinelCursor : ScrollCursor → Bool
  | .nullCur => true
  | .restId _ => false
  | .grpcPid n u => n == 0 && u == ""

/-- `_scroll_points` as a function of the sequence of responses the
remote returns to the successive scroll calls (each response is the
page of records plus the next cursor).  The loop extends `records` with
the page, then loops unless the cursor is the sentinel — so the
sentinel page itself is still collected. -/
def scrollPoints : List (List QdrantPoint × ScrollCursor) → List QdrantPoint
  | [] => []
  | (recs, c) :: rest => recs ++ (if isSentinelCursor c then [] else scrollPoints rest)

/-! ## Storage factory and distance metric
(`VectorStorage.make_storage`, `Qdrant._convert_metric`) -/

/-- The single-quote character (used inside error messages). -/
def sq : String := String.singleton (Char.ofNat 39)

/-- Python `s.lower()` (character-wise lowering, which is what the
backend names involve). -/
def pyToLower (s : String) : String := ⟨s.data.map Char.toLower⟩

/-- The lower-cased names of the registered `VectorStorage` subclasses,
in import order (`vector_storage/__init__.py`). -/
def storageSubclasses : List String := ["chroma", "qdrant"]

/-- The error message of `VectorStorage.make_storage` for an unknown
backend name (base.py lines 64-67). -/
def storageNotFoundMsg (name : String) : String :=
  "Vector storage " ++ sq ++ name ++ sq ++ " not found. " ++
    "Available storage options are: " ++ String.intercalate ", " storageSubclasses

/-- `VectorStorage.make_storage` (base.py lines 41-67); the constructed
instance is represented by its lower-cased class name. -/
def makeStorage (name : String) : Except String String :=
  if storageSubclasses.contains (pyToLower name) then Except.ok (pyToLower name)
  else Except.error (storageNotFoundMsg name)

/-- The `qdrant_client.models.Distance` values. -/
inductive QdrantDistance where
  | cosineDist : QdrantDistance
  | euclid : QdrantDistance
  | dot : QdrantDistance
  deriving DecidableEq, Repr

/-- `Qdrant._convert_metric` (qdrant.py lines 132-144). -/
def convertMetric (metric : String) : Except String QdrantDistance :=
  if metric = "cosine" then Except.ok .cosineDist
  else if metric = "l2" then Except.ok .euclid
  else if metric = "ip" then Except.ok .dot
  else Except.error ("Unsupported Qdrant similarity metric: " ++ metric)

/-- Boolean test: does `needle` start `hay`? -/
def startsWithChars : List Char → List Char → Bool
  | [], _ => true
  | _ :: _, [] => false
  | a :: as, b :: bs => a == b && startsWithChars as bs

/-- Boolean test: does `needle` occur contiguously inside `hay`? -/
def hasSubChars : List Char → List Char → Bool
  | needle, [] => startsWithChars needle []
  | needle, c :: t => startsWithChars needle (c :: t) || hasSubChars needle t

/-- Does `needle` occur as a contiguous substring of `hay`? -/
def strHasSub (hay needle : String) : Bool :=
  hasSubChars needle.data hay.data

/-! ## The ingest command body (`ingest`, ingest.py lines 34-96) -/

/-- The parts of the file system the ingest command touches: the contents
of the directory at `VECTOR_SEARCH_PATH` and the file names present in
`WARC_FOLDER_PATH`. -/
structure IngestFS where
  vectorStore : List String
  warcFolder : List String
  deriving DecidableEq, Repr

/-- Does `s` end with `suf`? -/
def strEndsWith (s suf : String) : Bool :=
  startsWithChars suf.data.reverse s.data.reverse

/-- The glob patterns of ingest.py lines 64-65. -/
def isWarcFile (f : String) : Bool :=
  strEndsWith f ".warc" || strEndsWith f ".warc.gz"

/-- How an ingest invocation ends. -/
inductive IngestOutcome where
  | usageError : IngestFS → IngestOutcome
  | exitNoFiles : IngestFS → IngestOutcome
  | completed : IngestFS → IngestOutcome
  deriving DecidableEq, Repr

/-- The ingest command body, up to the effects the claims are about
(ingest.py lines 51-96): validate the batch size (lines 51-56, a usage
error aborts before anything else happens), then delete and recreate the
vector-store directory (lines 60-61), then list and sort the WARC files
(lines 64-66), exiting with status 1 when there are none (lines 68-70);
otherwise the run stores exactly the entries it produces (`produced`
abstracts the ingestion loop output written through
`chroma_collection.add`). -/
def ingestRun (batchSize : Int) (produced : List String) (fs : IngestFS) : IngestOutcome :=
  if batchSize = 1 ∨ batchSize > 1 then
    let fs1 : IngestFS := { fs with vectorStore := [] }
    let warcFiles := (fs1.warcFolder.filter isWarcFile).mergeSort (fun a b => a ≤ b)
    if warcFiles = [] then .exitNoFiles fs1
    else .completed { fs1 with vectorStore := produced }
  else .usageError fs

/-! ## Adaptive batching (`ingest` lines 51-57, `chunk_objects` lines 264-293) -/

/-- The control state threaded through `chunk_objects` calls:
`multi_chunk_mode` and `encoding_timings`. -/
structure EncodeState where
  multiChunkMode : Bool
  encodingTimings : List ℚ
  deriving DecidableEq, Repr

/-- `statistics.mean`. -/
def listMean (l : List ℚ) : ℚ := l.sum / l.length

/-- Mode initialization (ingest.py lines 51-56): batch size 1 starts in
single-chunk mode, batch size above 1 in multi-chunk mode, anything
else is a usage error (`none`). -/
def initialMode (batchSize : Int) : Option Bool :=
  if batchSize = 1 then some false
  else if batchSize > 1 then some true
  else none

/-- The control-flow effect of one `chunk_objects` call on the state
(lines 267-293): in multi-chunk mode the whole record is encoded in one
batched call whose wall-clock `duration` is measured; a one-chunk call
records the duration as a timing sample; a call with more chunks leaves
multi-chunk mode exactly when at least one sample exists and the
duration exceeds `chunk count × mean(samples)`.  In single-chunk mode
nothing is measured and the state is unchanged. -/
def encodeStep (chunkCount : Nat) (duration : ℚ) (st : EncodeState) : EncodeState :=
  if st.multiChunkMode then
    if chunkCount = 1 then
      { st with encodingTimings := st.encodingTimings ++ [duration] }
    else if st.encodingTimings = [] then st
    else if duration > (chunkCount : ℚ) * listMean st.encodingTimings then
      { st with multiChunkMode := false }
    else st
  else st

/-- The state after a sequence of `chunk_objects` calls (each given as
chunk count and measured duration), threaded across the whole run. -/
def encodeRun (calls : List (Nat × ℚ)) (st : EncodeState) : EncodeState :=
  calls.foldl (fun s c => encodeStep c.1 c.2 s) st

/-! ## Request validation of `POST /api/completion`
(`post_completion`, api.py lines 53-160) -/

/-- JSON values as decoded by `request.get_json()`. -/
inductive JVal where
  | jnull : JVal
  | jbool : Bool → JVal
  | jnum : ℚ → JVal
  | jstr : String → JVal
  | jarr : List JVal → JVal
  | jobj : List (String × JVal) → JVal

/-- Key lookup in a JSON object. -/
def jLookup (d : List (String × JVal)) (k : String) : Option JVal :=
  (d.find? (fun p => p.1 == k)).map Prod.snd

/-- Python truthiness of a JSON value. -/
def pyTruthy : JVal → Bool
  | .jnull => false
  | .jbool b => b
  | .jnum q => !(q == 0)
  | .jstr s => !(s == "")
  | .jarr l => !l.isEmpty
  | .jobj l => !l.isEmpty

/-- Python `str()` of a JSON value.  The exact rendering of numbers,
lists and dicts is immaterial to the claims (it is always non-empty);
strings pass through unchanged. -/
def pyStr : JVal → String
  | .jstr s => s
  | .jbool true => "True"
  | .jbool false => "False"
  | .jnull => "None"
  | .jnum q => toString q
  | .jarr _ => "[...]"
  | .jobj _ => "\x7b...\x7d"

/-- The validated request parameters of `post_completion` as they stand
when validation is over (api.py lines 62-160). -/
structure CompletionParams where
  model : String
  message : String
  temperature : ℚ
  maxTokens : Option Int
  noRag : Bool
  ragOverride : Option String
  history : List JVal

/-- Outcome of the validation phase: a 400 response with its error
message, or the parameters processing continues with. -/
inductive CompletionValidation where
  | badRequest : String → CompletionValidation
  | accepted : CompletionParams → CompletionValidation

/-- One history item check (api.py lines 151-153): the item must be an
object whose `role` and `content` entries exist and are truthy. -/
def historyItemOk : JVal → Bool
  | .jobj d =>
    (match jLookup d "role" with | some v => pyTruthy v | none => false) &&
    (match jLookup d "content" with | some v => pyTruthy v | none => false)
  | _ => false

/-- The history loop (api.py lines 149-160): anything other than an array
of valid items raises inside the `try` and yields a 400. -/
def historyOk : JVal → Option (List JVal)
  | .jarr items => if items.all historyItemOk then some items else none
  | _ => none

/-- `Qdrant`-independent model of Python `float()` on JSON values where
it does not involve numeric-string parsing: numbers and booleans
convert, everything the claims exercise besides them raises. -/
def pyFloatBasic : JVal → Option ℚ
  | .jnum q => some q
  | .jbool b => some (if b then 1 else 0)
  | _ => none

/-- Model of Python `int()` on the same footing as `pyFloatBasic`
(truncation of a non-integral float models `int(float)`). -/
def pyIntBasic : JVal → Option Int
  | .jnum q => some ⌊q⌋
  | .jbool b => some (if b then 1 else 0)
  | _ => none

/-- The `model` check of api.py lines 85-88: a provided value that is
not one of the available model name strings is invalid. -/
def modelCheck (availableModels : List String) : JVal → Option String
  | .jstr m => if availableModels.contains m then some m else none
  | _ => none

/-- The `temperature` try-block of api.py lines 104-112:
`float(...)` must succeed and the result must be at least 0. -/
def tempCheck (floatFn : JVal → Option ℚ) (tv : JVal) : Option ℚ :=
  match floatFn tv with
  | some t => if t ≥ 0 then some t else none
  | none => none

/-- The `max_tokens` try-block of api.py lines 117-122:
`int(...)` must succeed and the result must be positive. -/
def maxTokensCheck (intFn : JVal → Option Int) (mtv : JVal) : Option Int :=
  match intFn mtv with
  | some t => if t > 0 then some t else none
  | none => none

/-- The `no_rag` try-block of api.py lines 127-132: a provided non-bool
is logged and ignored, leaving the default `False`. -/
def noRagOf : Option JVal → Bool
  | some (.jbool b) => b
  | _ => false

/-- The `rag_prompt_override` try-block of api.py lines 137-144: a
provided non-string is logged and ignored, leaving the default `None`. -/
def ragOverrideOf : Option JVal → Option String
  | some (.jstr s) => some (pyStrip s)
  | _ => none

/-- The validation phase of `post_completion` (api.py lines 79-160), in
source order: `model` (lines 82-88), `message` (lines 93-99),
`temperature` (lines 104-112), `max_tokens` (lines 117-122), `no_rag`
(lines 127-132, an invalid value is logged and ignored), and
`rag_prompt_override` (lines 137-144, likewise ignored when invalid),
then `history` (lines 149-160).  `floatFn` and `intFn` model the Python
`float()` / `int()` builtins. -/
def validateCompletion (floatFn : JVal → Option ℚ) (intFn : JVal → Option Int)
    (availableModels : List String) (input : List (String × JVal)) : CompletionValidation :=
  match jLookup input "model" with
  | none => .badRequest "No model provided."
  | some mv =>
    match modelCheck availableModels mv with
    | none => .badRequest "Requested model is invalid or not available."
    | some model =>
      match jLookup input "message" with
      | none => .badRequest "No message provided."
      | some msgv =>
        let message := pyStrip (pyStr msgv)
        if message = "" then .badRequest "Message cannot be empty."
        else
          match (match jLookup input "temperature" with
                 | none => some (0 : ℚ)
                 | some tv => tempCheck floatFn tv) with
          | none => .badRequest "temperature must be a float superior or equal to 0.0."
          | some temperature =>
            match (match jLookup input "max_tokens" with
                   | none => some none
                   | some mtv => (maxTokensCheck intFn mtv).map some) with
            | none => .badRequest "max_tokens must be an int superior to 0."
            | some maxTokens =>
              let noRag : Bool := noRagOf (jLookup input "no_rag")
              let ragOverride : Option String :=
                ragOverrideOf (jLookup input "rag_prompt_override")
              match jLookup input "history" with
              | none => .accepted ⟨model, message, temperature, maxTokens, noRag, ragOverride, []⟩
              | some hv =>
                match historyOk hv with
                | some items =>
                  .accepted ⟨model, message, temperature, maxTokens, noRag, ragOverride, items⟩
                | none =>
                  .badRequest "past_messages must be an array of chat completion objects."

/-! ## Concrete inputs used by witnesses -/

/-- A record whose text has exactly 5 whitespace-delimited words. -/
def sampleRecord : RecordData :=
  ⟨"a.warc.gz", "rec", "2023-01-01", "http://x", "text/html",
   "alpha beta gamma delta epsilon"⟩

/-- A record whose text has fewer than 5 words. -/
def shortRecord : RecordData :=
  ⟨"a.warc.gz", "rec2", "2023-01-01", "http://y", "text/html", "one two"⟩

/-- A ten-point collection as ranked by the Qdrant service for some
query. -/
def rankedTen : List QdrantPoint :=
  (List.range 10).map
    (fun i => ⟨"uuid" ++ toString i, [], payloadFor [] ("id" ++ toString i) ("doc" ++ toString i)⟩)

/-- Two scroll pages whose cursors are not the sentinel. -/
def samplePages : List (List QdrantPoint × ScrollCursor) :=
  [([⟨"p1", [], []⟩], .restId "c1"), ([], .grpcPid 3 "x")]

/-- A final scroll page carrying the grpc zero-valued sentinel cursor. -/
def sampleLastPage : List QdrantPoint × ScrollCursor :=
  ([⟨"p2", [], []⟩], .grpcPid 0 "")

/-- Responses the remote would serve after the sentinel. -/
def sampleExtraPages : List (List QdrantPoint × ScrollCursor) :=
  [([⟨"p3", [], []⟩], .nullCur)]

/-- The batch `processRecord` produces for `sampleRecord` with the
one-chunk splitter, marker "mark:" and a constant embedder. -/
def sampleBatch : AddBatch :=
  chunkObjectsData { sampleRecord with warc_record_text := pyStrip sampleRecord.warc_record_text }
    ([pyStrip sampleRecord.warc_record_text].map (fun c => "mark:" ++ c)) "mark:" (fun _ => [1])

/-! ## Helper lemmas -/

theorem mergeSort_ne_nil {α : Type} (l : List α) (le : α → α → Bool) (h : l ≠ []) :
    l.mergeSort le ≠ [] := by
  intro hnil
  have hp := List.mergeSort_perm l le
  rw [hnil] at hp
  exact h hp.symm.eq_nil

theorem scrollPoints_append_of_no_sentinel (pages rest : List (List QdrantPoint × ScrollCursor))
    (hpages : ∀ p ∈ pages, isSentinelCursor p.2 = false) :
    scrollPoints (pages ++ rest) = (pages.map Prod.fst).flatten ++ scrollPoints rest := by
  induction pages with
  | nil => simp
  | cons p ps ih =>
    obtain ⟨r, c⟩ := p
    have hc : isSentinelCursor c = false := hpages (r, c) (List.mem_cons_self _ _)
    simp [scrollPoints, hc, ih (fun q hq => hpages q (List.mem_cons_of_mem _ hq))]

theorem hasSubChars_append_left (needle pre hay : List Char) (h : hasSubChars needle hay = true) :
    hasSubChars needle (pre ++ hay) = true := by
  induction pre with
  | nil => simpa using h
  | cons c cs ih => simp [hasSubChars, ih]

theorem pyDictLookup_map_other (d : PyDict) (k v k2 : String) (h : k2 ≠ k) :
    pyDictLookup (d.map (fun p => if p.1 == k then (k, v) else p)) k2 = pyDictLookup d k2 := by
  induction d with
  | nil => rfl
  | cons a tl ih =>
    simp only [List.map_cons]
    by_cases hak : a.1 = k
    · have h1 : ((if (a.1 == k) = true then (k, v) else a) : String × String) = (k, v) := by
        simp [hak]
      rw [h1]
      have h2 : ((k, v).1 == k2) = false := by simp [Ne.symm h]
      have h3 : (a.1 == k2) = false := by simp [hak, Ne.symm h]
      simp only [pyDictLookup, h2, h3, if_false, Bool.false_eq_true]
      exact ih
    · have h1 : ((if (a.1 == k) = true then (k, v) else a) : String × String) = a := by
        simp [hak]
      rw [h1]
      simp only [pyDictLookup]
      rw [ih]

theorem pyDictLookup_map_self (d : PyDict) (k v : String)
    (hany : d.any (fun p => p.1 == k) = true) :
    pyDictLookup (d.map (fun p => if p.1 == k then (k, v) else p)) k = some v := by
  induction d with
  | nil => simp at hany
  | cons a tl ih =>
    simp only [List.map_cons]
    by_cases hak : a.1 = k
    · have h1 : ((if (a.1 == k) = true then (k, v) else a) : String × String) = (k, v) := by
        simp [hak]
      rw [h1]
      simp [pyDictLookup]
    · have h1 : ((if (a.1 == k) = true then (k, v) else a) : String × String) = a := by
        simp [hak]
      rw [h1]
      have htl : tl.any (fun p => p.1 == k) = true := by
        rcases (List.any_eq_true).mp hany with ⟨p, hp, hpk⟩
        rcases List.mem_cons.mp hp with rfl | hp2
        · exact absurd (by simpa using hpk) hak
        · exact (List.any_eq_true).mpr ⟨p, hp2, hpk⟩
      have h3 : (a.1 == k) = false := by simp [hak]
      simp only [pyDictLookup, h3, if_false, Bool.false_eq_true]
      exact ih htl

theorem pyDictLookup_append_pair (d : PyDict) (k v k2 : String)
    (hany : d.any (fun p => p.1 == k) = false) :
    pyDictLookup (d ++ [(k, v)]) k2 = if k2 = k then some v else pyDictLookup d k2 := by
  induction d with
  | nil =>
    by_cases hk2 : k2 = k
    · simp [pyDictLookup, hk2]
    · have h2 : (k == k2) = false := by simp [Ne.symm hk2]
      simp [pyDictLookup, hk2, h2]
  | cons a tl ih =>
    have ha : (a.1 == k) = false := by
      by_contra hc
      have : (a.1 == k) = true := by revert hc; cases (a.1 == k) <;> simp
      simp [List.any_cons, this] at hany
    have htl : tl.any (fun p => p.1 == k) = false := by
      by_contra hc
      have : tl.any (fun p => p.1 == k) = true := by
        revert hc; cases tl.any (fun p => p.1 == k) <;> simp
      simp [List.any_cons, this] at hany
    have hstep : pyDictLookup ((a :: tl) ++ [(k, v)]) k2
        = if (a.1 == k2) = true then some a.2 else pyDictLookup (tl ++ [(k, v)]) k2 := rfl
    have hstep2 : pyDictLookup (a :: tl) k2
        = if (a.1 == k2) = true then some a.2 else pyDictLookup tl k2 := rfl
    rw [hstep, ih htl, hstep2]
    by_cases hak2 : (a.1 == k2) = true
    · by_cases hk2 : k2 = k
      · exfalso
        have : a.1 = k := hk2 ▸ (by simpa using hak2)
        simp [this] at ha
      · simp [hak2, hk2]
    · by_cases hk2 : k2 = k
      · simp [hak2, hk2]
        intro hcontra
        exact absurd hcontra (by simpa using ha)
      · simp [hak2, hk2]

theorem pyDictLookup_set (d : PyDict) (k v k2 : String) :
    pyDictLookup (pyDictSet d k v) k2 = if k2 = k then some v else pyDictLookup d k2 := by
  unfold pyDictSet
  by_cases hany : d.any (fun p => p.1 == k) = true
  · rw [if_pos hany]
    by_cases hk2 : k2 = k
    · rw [hk2, pyDictLookup_map_self d k v hany, if_pos rfl]
    · rw [pyDictLookup_map_other d k v k2 hk2, if_neg hk2]
  · have hf : d.any (fun p => p.1 == k) = false := by
      revert hany; cases d.any (fun p => p.1 == k) <;> simp
    rw [if_neg hany]
    exact pyDictLookup_append_pair d k v k2 hf

theorem pyDictLookup_remove (d : PyDict) (k k2 : String) :
    pyDictLookup (pyDictRemove d k) k2 = if k2 = k then none else pyDictLookup d k2 := by
  induction d with
  | nil => simp [pyDictRemove, pyDictLookup]
  | cons a tl ih =>
    by_cases hak : a.1 = k
    · have hfilter : pyDictRemove (a :: tl) k = pyDictRemove tl k := by
        simp [pyDictRemove, List.filter_cons, hak]
      rw [hfilter, ih]
      by_cases hk2 : k2 = k
      · simp [hk2]
      · have hak2 : ¬ a.1 = k2 := by rw [hak]; exact Ne.symm hk2
        simp [pyDictLookup, hak2, hk2]
    · have hfilter : pyDictRemove (a :: tl) k = a :: pyDictRemove tl k := by
        simp [pyDictRemove, List.filter_cons, hak]
      rw [hfilter]
      have hstep : pyDictLookup (a :: pyDictRemove tl k) k2
          = if (a.1 == k2) = true then some a.2 else pyDictLookup (pyDictRemove tl k) k2 := rfl
      have hstep2 : pyDictLookup (a :: tl) k2
          = if (a.1 == k2) = true then some a.2 else pyDictLookup tl k2 := rfl
      rw [hstep, ih, hstep2]
      by_cases hak2 : (a.1 == k2) = true
      · by_cases hk2 : k2 = k
        · exfalso
          have : a.1 = k := hk2 ▸ (by simpa using hak2)
          exact hak this
        · simp [hak2, hk2]
      · by_cases hk2 : k2 = k
        · simp [hak2, hk2]
          exact hak
        · simp [hak2, hk2]

theorem popPoint_payload (meta : PyDict) (id doc fid : String) (vec : List ℚ) :
    popPoint ⟨fid, vec, payloadFor meta id doc⟩ =
      some (id, doc,
        pyDictRemove (pyDictRemove (payloadFor meta id doc) ID_KEY) DOCUMENT_KEY, vec) := by
  have hid : pyDictLookup (payloadFor meta id doc) ID_KEY = some id := by
    unfold payloadFor
    rw [pyDictLookup_set, if_neg (by decide), pyDictLookup_set, if_pos rfl]
  have hdoc : pyDictLookup (pyDictRemove (payloadFor meta id doc) ID_KEY) DOCUMENT_KEY
      = some doc := by
    rw [pyDictLookup_remove, if_neg (by decide)]
    unfold payloadFor
    rw [pyDictLookup_set, if_pos rfl]
  simp [popPoint, hid, hdoc]

theorem popResponse_mkPoints (docs : List String) (embs : List (List ℚ)) (metas : List PyDict)
    (ids fresh : List String) (h1 : embs.length = docs.length) (h2 : metas.length = docs.length)
    (h3 : ids.length = docs.length) (h4 : fresh.length = docs.length) :
    ∃ metaOut, popResponse (mkPoints docs embs metas ids fresh) = some ⟨ids, embs, docs, metaOut⟩ := by
  induction docs generalizing embs metas ids fresh with
  | nil =>
    have he : embs = [] := by cases embs with | nil => rfl | cons _ _ => simp at h1
    have hm : metas = [] := by cases metas with | nil => rfl | cons _ _ => simp at h2
    have hi : ids = [] := by cases ids with | nil => rfl | cons _ _ => simp at h3
    have hf : fresh = [] := by cases fresh with | nil => rfl | cons _ _ => simp at h4
    subst he; subst hm; subst hi; subst hf
    exact ⟨[], rfl⟩
  | cons dc dcs ih =>
    obtain ⟨e, es, rfl⟩ : ∃ e es, embs = e :: es := by
      cases embs with | nil => simp at h1 | cons e es => exact ⟨e, es, rfl⟩
    obtain ⟨mt, mts, rfl⟩ : ∃ mt mts, metas = mt :: mts := by
      cases metas with | nil => simp at h2 | cons mt mts => exact ⟨mt, mts, rfl⟩
    obtain ⟨i, is2, rfl⟩ : ∃ i is2, ids = i :: is2 := by
      cases ids with | nil => simp at h3 | cons i is2 => exact ⟨i, is2, rfl⟩
    obtain ⟨f, fs, rfl⟩ : ∃ f fs, fresh = f :: fs := by
      cases fresh with | nil => simp at h4 | cons f fs => exact ⟨f, fs, rfl⟩
    simp only [List.length_cons, Nat.add_right_cancel_iff] at h1 h2 h3 h4
    obtain ⟨mo, hmo⟩ := ih es mts is2 fs h1 h2 h3 h4
    refine ⟨pyDictRemove (pyDictRemove (payloadFor mt i dc) ID_KEY) DOCUMENT_KEY :: mo, ?_⟩
    have hstep : mkPoints (dc :: dcs) (e :: es) (mt :: mts) (i :: is2) (f :: fs) =
        ⟨f, e, payloadFor mt i dc⟩ :: mkPoints dcs es mts is2 fs := rfl
    rw [hstep]
    simp [popResponse, popPoint_payload, hmo]

theorem mem_mkPoints (docs : List String) (embs : List (List ℚ)) (metas : List PyDict)
    (ids fresh : List String) (p : QdrantPoint) (hp : p ∈ mkPoints docs embs metas ids fresh) :
    ∃ mt i dc f vec, i ∈ ids ∧ dc ∈ docs ∧ p = ⟨f, vec, payloadFor mt i dc⟩ := by
  induction docs generalizing embs metas ids fresh with
  | nil =>
    rw [show mkPoints [] embs metas ids fresh = [] from rfl] at hp
    simp at hp
  | cons dc dcs ih =>
    cases embs with
    | nil =>
      rw [show mkPoints (dc :: dcs) [] metas ids fresh = [] from rfl] at hp
      simp at hp
    | cons e es =>
      cases metas with
      | nil =>
        rw [show mkPoints (dc :: dcs) (e :: es) [] ids fresh = [] from rfl] at hp
        simp at hp
      | cons mt mts =>
        cases ids with
        | nil =>
          rw [show mkPoints (dc :: dcs) (e :: es) (mt :: mts) [] fresh = [] from rfl] at hp
          simp at hp
        | cons i is2 =>
          cases fresh with
          | nil =>
            rw [show mkPoints (dc :: dcs) (e :: es) (mt :: mts) (i :: is2) [] = [] from rfl] at hp
            simp at hp
          | cons f fs =>
            rw [show mkPoints (dc :: dcs) (e :: es) (mt :: mts) (i :: is2) (f :: fs) =
                ⟨f, e, payloadFor mt i dc⟩ :: mkPoints dcs es mts is2 fs from rfl] at hp
            rcases List.mem_cons.mp hp with h | h
            · exact ⟨mt, i, dc, f, e, List.mem_cons_self _ _, List.mem_cons_self _ _, h⟩
            · obtain ⟨mt2, i2, dc2, f2, v2, hi2, hdc2, hp2⟩ := ih es mts is2 fs h
              exact ⟨mt2, i2, dc2, f2, v2, List.mem_cons_of_mem _ hi2,
                List.mem_cons_of_mem _ hdc2, hp2⟩

theorem popResponse_mem_bound (ids0 docs0 : List String) :
    ∀ (pts : List QdrantPoint) (r : StorageResponse),
      (∀ p ∈ pts, ∃ mt i dc f vec, i ∈ ids0 ∧ dc ∈ docs0 ∧ p = ⟨f, vec, payloadFor mt i dc⟩) →
      popResponse pts = some r →
      (∀ x ∈ r.ids, x ∈ ids0) ∧ (∀ x ∈ r.documents, x ∈ docs0) := by
  intro pts
  induction pts with
  | nil =>
    intro r hpts hr
    have : (⟨[], [], [], []⟩ : StorageResponse) = r := by
      simpa [popResponse] using hr
    subst this
    exact ⟨by simp, by simp⟩
  | cons p ps ih =>
    intro r hpts hr
    obtain ⟨mt, i, dc, f, vec, hi, hdc, rfl⟩ := hpts p (List.mem_cons_self _ _)
    cases hps : popResponse ps with
    | none =>
      rw [show popResponse (⟨f, vec, payloadFor mt i dc⟩ :: ps) =
          (match popPoint ⟨f, vec, payloadFor mt i dc⟩, popResponse ps with
           | some (id, doc, meta2, v), some r2 =>
             some ⟨id :: r2.ids, v :: r2.embeddings, doc :: r2.documents, meta2 :: r2.metadatas⟩
           | _, _ => none) from rfl, popPoint_payload, hps] at hr
      exact absurd hr (by simp)
    | some r2 =>
      rw [show popResponse (⟨f, vec, payloadFor mt i dc⟩ :: ps) =
          (match popPoint ⟨f, vec, payloadFor mt i dc⟩, popResponse ps with
           | some (id, doc, meta2, v), some r3 =>
             some ⟨id :: r3.ids, v :: r3.embeddings, doc :: r3.documents, meta2 :: r3.metadatas⟩
           | _, _ => none) from rfl, popPoint_payload, hps] at hr
      obtain ⟨ihi, ihd⟩ := ih r2 (fun q hq => hpts q (List.mem_cons_of_mem _ hq)) hps
      have hrr : (⟨i :: r2.ids, vec :: r2.embeddings, dc :: r2.documents,
          pyDictRemove (pyDictRemove (payloadFor mt i dc) ID_KEY) DOCUMENT_KEY :: r2.metadatas⟩
            : StorageResponse) = r := by
        simpa using hr
      subst hrr
      constructor
      · intro x hx
        rcases List.mem_cons.mp hx with h | h
        · exact h ▸ hi
        · exact ihi x h
      · intro x hx
        rcases List.mem_cons.mp hx with h | h
        · exact h ▸ hdc
        · exact ihd x h

theorem pySliceFrom_append (p c : String) : pySliceFrom (p ++ c) p.length = c := by
  have h : (p ++ c).data = p.data ++ c.data := String.data_append p c
  unfold pySliceFrom
  rw [h]
  have hl : p.length = p.data.length := rfl
  rw [hl, List.drop_left]

/-! ## Claim theorems -/

/-- C5: for every record and chunk list, the generated storage-entry ids
are exactly `record_id ++ "-" ++ sequence index` with the sequence index
running contiguously from 1 up to the number of chunks of the record. -/
theorem chunk_ids_contiguous_from_one (rd : RecordData) (textChunks : List String)
    (chunkPfx : String) (encode : String → List ℚ) (rid : String) (n : Nat) :
    (chunkObjectsData rd textChunks chunkPfx encode).ids
      = chunkIds rd.warc_record_id textChunks.length ∧
    (chunkIds rid n).length = n ∧
    ∀ i, (h : i < (chunkIds rid n).length) →
      (chunkIds rid n).get ⟨i, h⟩ = rid ++ "-" ++ toString (i + 1) := by
  refine ⟨rfl, by simp [chunkIds], fun i h => ?_⟩
  simp [chunkIds, List.get_eq_getElem]

theorem chunk_ids_contiguous_from_one_witness :
    (chunkIds "rec" 3).length = 3 ∧
    (chunkIds "rec" 3).get ⟨1, by decide⟩ = "rec" ++ "-" ++ toString (1 + 1) :=
  ⟨(chunk_ids_contiguous_from_one sampleRecord [] "" (fun _ => []) "rec" 3).2.1,
   (chunk_ids_contiguous_from_one sampleRecord [] "" (fun _ => []) "rec" 3).2.2 1 (by decide)⟩

/-- C6: for every chunk stored for a record, the stored metadata field
`warc_record_text` is the marked chunk text with the configured chunk
marker sliced off the front, i.e. exactly the unmarked chunk text
produced by the splitter. -/
theorem stored_text_strips_chunk_marker (splitText : String → List String)
    (chunkPfx : String) (encode : String → List ℚ) (rd : RecordData) (b : AddBatch)
    (h : processRecord splitText chunkPfx encode rd = some b) :
    b.metadatas.map (fun m => m.warc_record_text) = splitText (pyStrip rd.warc_record_text) := by
  by_cases h1 : rd.warc_record_text = ""
  · simp [processRecord, h1] at h
  · by_cases h2 : (pySplit rd.warc_record_text).length < 5
    · simp [processRecord, h1, h2] at h
    · by_cases h3 : splitText (pyStrip rd.warc_record_text) = []
      · simp [processRecord, h1, h2, h3] at h
      · simp [processRecord, h1, h2, h3] at h
        rw [← h]
        simp [chunkObjectsData, List.map_map, Function.comp_def, pySliceFrom_append]

theorem stored_text_strips_chunk_marker_witness :
    sampleBatch.metadatas.map (fun m => m.warc_record_text) =
      (fun s => [s]) (pyStrip sampleRecord.warc_record_text) :=
  stored_text_strips_chunk_marker (fun s => [s]) "mark:" (fun _ => [1]) sampleRecord
    sampleBatch (by decide)

/-- C7: a record whose extracted text is empty or has fewer than 5
whitespace-delimited words produces no storage batch at all (it is
skipped before chunking, embedding and storage), and the run simply
continues with the remaining records. -/
theorem short_text_record_yields_no_entries (splitText : String → List String)
    (chunkPfx : String) (encode : String → List ℚ) (rd : RecordData)
    (h : rd.warc_record_text = "" ∨ (pySplit rd.warc_record_text).length < 5) :
    processRecord splitText chunkPfx encode rd = none ∧
    ∀ pre post, processAll splitText chunkPfx encode (pre ++ rd :: post) =
      processAll splitText chunkPfx encode pre ++ processAll splitText chunkPfx encode post := by
  have hnone : processRecord splitText chunkPfx encode rd = none := by
    rcases h with h | h
    · simp [processRecord, h]
    · rcases eq_or_ne rd.warc_record_text "" with he | he
      · simp [processRecord, he]
      · simp [processRecord, he, h]
  refine ⟨hnone, fun pre post => ?_⟩
  simp [processAll, List.filterMap_append, List.filterMap_cons, hnone]

theorem short_text_record_yields_no_entries_witness :
    processRecord (fun s => [s]) "mark:" (fun _ => [1]) shortRecord = none ∧
    processAll (fun s => [s]) "mark:" (fun _ => [1]) ([sampleRecord] ++ shortRecord :: []) =
      processAll (fun s => [s]) "mark:" (fun _ => [1]) [sampleRecord] ++
        processAll (fun s => [s]) "mark:" (fun _ => [1]) [] :=
  ⟨(short_text_record_yields_no_entries (fun s => [s]) "mark:" (fun _ => [1]) shortRecord
      (Or.inr (by decide))).1,
   (short_text_record_yields_no_entries (fun s => [s]) "mark:" (fun _ => [1]) shortRecord
      (Or.inr (by decide))).2 [sampleRecord] []⟩

/-- C2: with batch size above 1 the run starts in multi-chunk mode; after
a multi-chunk batched call the engine leaves multi-chunk mode exactly
when at least one single-chunk timing sample exists and the call
duration exceeds the chunk count times the mean of the samples; once in
single-chunk mode the state never changes again (so the mode never
reverts and, starting from batch size 1 with no samples, no samples are
ever collected). -/
theorem adaptive_batching_state_machine (batchSize : Int) (n : Nat) (d : ℚ)
    (st : EncodeState) (calls : List (Nat × ℚ)) :
    (batchSize = 1 → initialMode batchSize = some false) ∧
    (batchSize > 1 → initialMode batchSize = some true) ∧
    (st.multiChunkMode = true → 2 ≤ n →
      ((encodeStep n d st).multiChunkMode = false ↔
        st.encodingTimings ≠ [] ∧ d > (n : ℚ) * listMean st.encodingTimings)) ∧
    (st.multiChunkMode = false → encodeRun calls st = st) := by
  refine ⟨?_, ?_, ?_, ?_⟩
  · intro h; simp [initialMode, h]
  · intro h
    have h1 : ¬ batchSize = 1 := by omega
    simp [initialMode, h1, h]
  · intro hm hn
    have hne : ¬ n = 1 := by omega
    by_cases ht : st.encodingTimings = []
    · simp [encodeStep, hm, hne, ht]
    · by_cases hd : d > (n : ℚ) * listMean st.encodingTimings
      · simp [encodeStep, hm, hne, ht, hd]
      · simp [encodeStep, hm, hne, ht, hd]
  · intro hm
    induction calls with
    | nil => rfl
    | cons c cs ih =>
      have hstep : encodeStep c.1 c.2 st = st := by simp [encodeStep, hm]
      calc encodeRun (c :: cs) st = encodeRun cs (encodeStep c.1 c.2 st) := rfl
        _ = encodeRun cs st := by rw [hstep]
        _ = st := ih

theorem adaptive_batching_state_machine_witness :
    initialMode 4 = some true ∧
    ((encodeStep 3 10 ⟨true, [2]⟩).multiChunkMode = false ↔
      ([(2 : ℚ)] ≠ [] ∧ (10 : ℚ) > ((3 : Nat) : ℚ) * listMean [(2 : ℚ)])) ∧
    encodeRun [(3, 100)] ⟨false, []⟩ = ⟨false, []⟩ :=
  ⟨(adaptive_batching_state_machine 4 3 10 ⟨true, [2]⟩ [(3, 100)]).2.1 (by decide),
   (adaptive_batching_state_machine 4 3 10 ⟨true, [2]⟩ [(3, 100)]).2.2.1 rfl (by decide),
   (adaptive_batching_state_machine 4 3 10 ⟨false, []⟩ [(3, 100)]).2.2.2 rfl⟩

/-- C9 counterexample: an ingest invocation with batch size 0 raises the
usage error of ingest.py line 56 before reaching the cleanup of lines
60-61, so the vector-store directory is left untouched (here non-empty),
refuting the claim that every invocation unconditionally deletes it. -/
theorem nonpositive_batch_size_aborts_before_cleanup :
    ingestRun 0 ["new"] ⟨["old"], ["a.warc"]⟩ = .usageError ⟨["old"], ["a.warc"]⟩ ∧
    (IngestFS.mk ["old"] ["a.warc"]).vectorStore ≠ [] := by
  constructor
  · rfl
  · decide

/-- C9 (amended): every ingest invocation that passes batch-size
validation (batch size at least 1) deletes and recreates the vector
store before listing any archive file: the outcome never depends on the
previous store contents, the store is already empty when the run aborts
because no archive files were found, and a completed run leaves exactly
the entries produced by this run. -/
theorem ingest_wipes_store_before_listing (b : Int) (hb : 1 ≤ b)
    (produced store store2 warc : List String) :
    ingestRun b produced ⟨store, warc⟩ = ingestRun b produced ⟨store2, warc⟩ ∧
    (warc.filter isWarcFile = [] →
      ingestRun b produced ⟨store, warc⟩ = .exitNoFiles ⟨[], warc⟩) ∧
    (warc.filter isWarcFile ≠ [] →
      ingestRun b produced ⟨store, warc⟩ = .completed ⟨produced, warc⟩) := by
  have hcond : b = 1 ∨ b > 1 := by omega
  refine ⟨?_, ?_, ?_⟩
  · unfold ingestRun
    rw [if_pos hcond, if_pos hcond]
  · intro hw
    have h0 : (((⟨store, warc⟩ : IngestFS).warcFolder.filter isWarcFile).mergeSort
        (fun a b => a ≤ b) : List String) = [] := by
      show ((warc.filter isWarcFile).mergeSort (fun a b => a ≤ b) : List String) = []
      rw [hw]; exact List.mergeSort_nil
    unfold ingestRun
    rw [if_pos hcond, if_pos h0]
  · intro hw
    have h0 : (((⟨store, warc⟩ : IngestFS).warcFolder.filter isWarcFile).mergeSort
        (fun a b => a ≤ b) : List String) ≠ [] := by
      show ((warc.filter isWarcFile).mergeSort (fun a b => a ≤ b) : List String) ≠ []
      exact mergeSort_ne_nil _ _ hw
    unfold ingestRun
    rw [if_pos hcond, if_neg h0]

theorem ingest_wipes_store_before_listing_witness :
    ingestRun 2 ["e1"] ⟨["old1"], ["b.warc"]⟩ = ingestRun 2 ["e1"] ⟨["other"], ["b.warc"]⟩ ∧
    ingestRun 2 ["e1"] ⟨["old1"], ["note.txt"]⟩ = .exitNoFiles ⟨[], ["note.txt"]⟩ ∧
    ingestRun 2 ["e1"] ⟨["old1"], ["b.warc"]⟩ = .completed ⟨["e1"], ["b.warc"]⟩ :=
  ⟨(ingest_wipes_store_before_listing 2 (by decide) ["e1"] ["old1"] ["other"] ["b.warc"]).1,
   (ingest_wipes_store_before_listing 2 (by decide) ["e1"] ["old1"] ["other"]
      ["note.txt"]).2.1 (by decide),
   (ingest_wipes_store_before_listing 2 (by decide) ["e1"] ["old1"] ["other"]
      ["b.warc"]).2.2 (by decide)⟩

/-- C4: the scroll loop of `_scroll_points` stops exactly when the
cursor returned with a page is the sentinel — the uniform null cursor or
a grpc PointId record with `num = 0` and empty `uuid` — and over any
finite response sequence whose final page carries such a sentinel it
collects the concatenation of all pages (and never requests further
pages). -/
theorem scroll_terminates_at_sentinel_and_concatenates
    (pages : List (List QdrantPoint × ScrollCursor)) (last : List QdrantPoint × ScrollCursor)
    (hpages : ∀ p ∈ pages, isSentinelCursor p.2 = false)
    (hlast : isSentinelCursor last.2 = true) :
    scrollPoints (pages ++ [last]) = ((pages ++ [last]).map Prod.fst).flatten ∧
    (∀ extra, scrollPoints (pages ++ [last] ++ extra) = scrollPoints (pages ++ [last])) ∧
    isSentinelCursor .nullCur = true ∧
    (∀ n u, isSentinelCursor (.grpcPid n u) = true ↔ (n = 0 ∧ u = "")) ∧
    (∀ s, isSentinelCursor (.restId s) = false) := by
  obtain ⟨r, c⟩ := last
  have hone : ∀ rest, scrollPoints ((r, c) :: rest) = r := by
    intro rest
    simp [scrollPoints, hlast]
  refine ⟨?_, ?_, rfl, ?_, fun s => rfl⟩
  · rw [scrollPoints_append_of_no_sentinel pages [(r, c)] hpages, hone]
    simp
  · intro extra
    rw [List.append_assoc]
    simp only [List.singleton_append]
    rw [scrollPoints_append_of_no_sentinel pages ((r, c) :: extra) hpages,
      scrollPoints_append_of_no_sentinel pages [(r, c)] hpages, hone, hone]
  · intro n u
    simp [isSentinelCursor]

theorem scroll_terminates_at_sentinel_and_concatenates_witness :
    scrollPoints (samplePages ++ [sampleLastPage]) =
      ((samplePages ++ [sampleLastPage]).map Prod.fst).flatten ∧
    scrollPoints (samplePages ++ [sampleLastPage] ++ sampleExtraPages) =
      scrollPoints (samplePages ++ [sampleLastPage]) :=
  ⟨(scroll_terminates_at_sentinel_and_concatenates samplePages sampleLastPage
      (by decide) (by decide)).1,
   (scroll_terminates_at_sentinel_and_concatenates samplePages sampleLastPage
      (by decide) (by decide)).2.1 sampleExtraPages⟩

/-- C8 counterexample: the unsupported-metric error of
`Qdrant._convert_metric` does not enumerate the set of valid options —
for the unsupported metric name "l1" the message mentions none of
"cosine", "l2" (other than inside "l1" it does not appear) and "ip". -/
theorem metric_error_lacks_option_enumeration :
    convertMetric "l1" = Except.error ("Unsupported Qdrant similarity metric: " ++ "l1") ∧
    strHasSub ("Unsupported Qdrant similarity metric: " ++ "l1") "cosine" = false ∧
    strHasSub ("Unsupported Qdrant similarity metric: " ++ "l1") "l2" = false ∧
    strHasSub ("Unsupported Qdrant similarity metric: " ++ "l1") "ip" = false := by
  refine ⟨rfl, ?_, ?_, ?_⟩ <;> decide

/-- C8 (amended): an unknown storage backend name fails in the factory
with a message enumerating the valid backend names, while an unsupported
distance-metric name fails in `Qdrant._convert_metric` with a message
that names the offending metric but does not enumerate the valid
options. -/
theorem factory_enumerates_options_metric_error_names_metric (name metric : String)
    (hn : storageSubclasses.contains (pyToLower name) = false)
    (hm1 : metric ≠ "cosine") (hm2 : metric ≠ "l2") (hm3 : metric ≠ "ip") :
    makeStorage name = Except.error (storageNotFoundMsg name) ∧
    strHasSub (storageNotFoundMsg name) "chroma" = true ∧
    strHasSub (storageNotFoundMsg name) "qdrant" = true ∧
    convertMetric metric = Except.error ("Unsupported Qdrant similarity metric: " ++ metric) := by
  have hdata : (storageNotFoundMsg name).data =
      ("Vector storage " ++ sq).data ++ (name.data ++
        (sq ++ " not found. " ++ "Available storage options are: " ++
          String.intercalate ", " storageSubclasses).data) := by
    simp [storageNotFoundMsg, String.data_append, List.append_assoc]
  have hcf : ¬ (storageSubclasses.contains (pyToLower name) = true) := by
    rw [hn]; exact Bool.false_ne_true
  refine ⟨by unfold makeStorage; rw [if_neg hcf], ?_, ?_, by simp [convertMetric, hm1, hm2, hm3]⟩
  · show hasSubChars ("chroma" : String).data (storageNotFoundMsg name).data = true
    rw [hdata]
    exact hasSubChars_append_left _ _ _ (hasSubChars_append_left _ _ _ (by decide))
  · show hasSubChars ("qdrant" : String).data (storageNotFoundMsg name).data = true
    rw [hdata]
    exact hasSubChars_append_left _ _ _ (hasSubChars_append_left _ _ _ (by decide))

theorem factory_enumerates_options_metric_error_names_metric_witness :
    makeStorage "Foo" = Except.error (storageNotFoundMsg "Foo") ∧
    strHasSub (storageNotFoundMsg "Foo") "chroma" = true ∧
    strHasSub (storageNotFoundMsg "Foo") "qdrant" = true ∧
    convertMetric "l1" = Except.error ("Unsupported Qdrant similarity metric: " ++ "l1") :=
  factory_enumerates_options_metric_error_names_metric "Foo" "l1"
    (by decide) (by decide) (by decide) (by decide)

/-- C1 at the failing input: against a ten-entry collection,
`Qdrant.search` with `limit = 3` returns a single result — the source
passes the boolean `True` (integer value 1) instead of the numeric limit
to the service call — instead of the 3 results the claim requires. -/
theorem qdrant_search_ignores_numeric_limit :
    rankedTen.length = 10 ∧
    (qdrantSearch rankedTen 3).map (fun r => r.ids) = some ["id0"] ∧
    (qdrantSearch rankedTen 3).map (fun r => r.ids.length) = some pyTrue ∧
    (qdrantSearch rankedTen 3).map (fun r => r.ids.length) ≠ some 3 := by
  refine ⟨?_, ?_, ?_, ?_⟩ <;> decide

/-- C3: for the Qdrant backend, after an `add` the response assembled by
`get_all` (and by `search`, which runs the same payload-popping loop
over whatever subset of the stored points the service returns) carries
exactly the caller-supplied ids and document labels, recovered from the
two reserved payload keys; the fresh physical point UUIDs generated at
insert time (which are distinct from all caller-visible strings) never
appear among the returned ids or documents. -/
theorem qdrant_add_roundtrip_hides_point_uuid (docs : List String) (embs : List (List ℚ))
    (metas : List PyDict) (ids fresh : List String)
    (h1 : embs.length = docs.length) (h2 : metas.length = docs.length)
    (h3 : ids.length = docs.length) (h4 : fresh.length = docs.length) :
    ∃ r, qdrantGetAll (qdrantAdd [] docs embs metas ids fresh) = some r ∧
      r.ids = ids ∧ r.documents = docs ∧
      (∀ u ∈ fresh, u ∉ ids → u ∉ r.ids) ∧
      (∀ u ∈ fresh, u ∉ docs → u ∉ r.documents) ∧
      (∀ pts r2, (∀ p ∈ pts, p ∈ qdrantAdd [] docs embs metas ids fresh) →
        popResponse pts = some r2 →
        (∀ x ∈ r2.ids, x ∈ ids) ∧ (∀ x ∈ r2.documents, x ∈ docs)) := by
  have hadd : qdrantAdd [] docs embs metas ids fresh = mkPoints docs embs metas ids fresh := by
    simp [qdrantAdd]
  obtain ⟨mo, hmo⟩ := popResponse_mkPoints docs embs metas ids fresh h1 h2 h3 h4
  refine ⟨⟨ids, embs, docs, mo⟩, ?_, rfl, rfl, ?_, ?_, ?_⟩
  · show popResponse (qdrantAdd [] docs embs metas ids fresh) = _
    rw [hadd]
    exact hmo
  · intro u _ hnotin
    exact hnotin
  · intro u _ hnotin
    exact hnotin
  · intro pts r2 hmem hpop
    refine popResponse_mem_bound ids docs pts r2 ?_ hpop
    intro p hp
    have hmem2 := hmem p hp
    rw [hadd] at hmem2
    exact mem_mkPoints docs embs metas ids fresh p hmem2

theorem qdrant_add_roundtrip_hides_point_uuid_witness :
    ∃ r, qdrantGetAll (qdrantAdd [] ["d1", "d2"] [[], []] [[("k", "v")], []] ["a", "b"]
        ["u1", "u2"]) = some r ∧
      r.ids = ["a", "b"] ∧ r.documents = ["d1", "d2"] ∧
      (∀ u ∈ ["u1", "u2"], u ∉ ["a", "b"] → u ∉ r.ids) ∧
      (∀ u ∈ ["u1", "u2"], u ∉ ["d1", "d2"] → u ∉ r.documents) ∧
      (∀ pts r2, (∀ p ∈ pts, p ∈ qdrantAdd [] ["d1", "d2"] [[], []] [[("k", "v")], []]
          ["a", "b"] ["u1", "u2"]) →
        popResponse pts = some r2 →
        (∀ x ∈ r2.ids, x ∈ ["a", "b"]) ∧ (∀ x ∈ r2.documents, x ∈ ["d1", "d2"])) :=
  qdrant_add_roundtrip_hides_point_uuid ["d1", "d2"] [[], []] [[("k", "v")], []] ["a", "b"]
    ["u1", "u2"] rfl rfl rfl rfl

theorem noRagOf_not_bool (v : JVal) (h : ∀ bl, v ≠ .jbool bl) : noRagOf (some v) = false := by
  cases v with
  | jbool bl => exact absurd rfl (h bl)
  | jnull => rfl
  | jnum q => rfl
  | jstr s => rfl
  | jarr l => rfl
  | jobj l => rfl

theorem ragOverrideOf_not_str (v : JVal) (h : ∀ s, v ≠ .jstr s) :
    ragOverrideOf (some v) = none := by
  cases v with
  | jstr s => exact absurd rfl (h s)
  | jnull => rfl
  | jnum q => rfl
  | jbool b => rfl
  | jarr l => rfl
  | jobj l => rfl

/-- C10: in a `/api/completion` request whose other fields are valid, a
`no_rag` value that is not a boolean and a `rag_prompt_override` value
that is not a string do not cause a 400: they are ignored (the request
is accepted with `no_rag` still false and no override), whereas a
missing or unavailable `model`, a missing or empty `message`, an invalid
`temperature` or `max_tokens`, and an ill-shaped `history` are each
rejected with a 400 and its specific message. -/
theorem invalid_no_rag_and_rag_override_ignored
    (floatFn : JVal → Option ℚ) (intFn : JVal → Option Int) (models : List String)
    (input : List (String × JVal)) (m : String) (msgv nrv rpv : JVal)
    (hm : jLookup input "model" = some (.jstr m)) (hmav : models.contains m = true)
    (hmsg : jLookup input "message" = some msgv) (hmsgne : pyStrip (pyStr msgv) ≠ "")
    (htemp : jLookup input "temperature" = none) (hmax : jLookup input "max_tokens" = none)
    (hhist : jLookup input "history" = none)
    (hnr : jLookup input "no_rag" = some nrv) (hnrb : ∀ bl, nrv ≠ .jbool bl)
    (hrp : jLookup input "rag_prompt_override" = some rpv) (hrps : ∀ s, rpv ≠ .jstr s) :
    validateCompletion floatFn intFn models input =
      .accepted ⟨m, pyStrip (pyStr msgv), 0, none, false, none, []⟩ ∧
    validateCompletion pyFloatBasic pyIntBasic ["m1"] [] = .badRequest "No model provided." ∧
    validateCompletion pyFloatBasic pyIntBasic ["m1"] [("model", .jnum 3)] =
      .badRequest "Requested model is invalid or not available." ∧
    validateCompletion pyFloatBasic pyIntBasic ["m1"] [("model", .jstr "m1")] =
      .badRequest "No message provided." ∧
    validateCompletion pyFloatBasic pyIntBasic ["m1"]
      [("model", .jstr "m1"), ("message", .jstr "  ")] =
      .badRequest "Message cannot be empty." ∧
    validateCompletion pyFloatBasic pyIntBasic ["m1"]
      [("model", .jstr "m1"), ("message", .jstr "hi"), ("temperature", .jnull)] =
      .badRequest "temperature must be a float superior or equal to 0.0." ∧
    validateCompletion pyFloatBasic pyIntBasic ["m1"]
      [("model", .jstr "m1"), ("message", .jstr "hi"), ("max_tokens", .jnull)] =
      .badRequest "max_tokens must be an int superior to 0." ∧
    validateCompletion pyFloatBasic pyIntBasic ["m1"]
      [("model", .jstr "m1"), ("message", .jstr "hi"), ("history", .jstr "bad")] =
      .badRequest "past_messages must be an array of chat completion objects." := by
  refine ⟨?_, rfl, rfl, rfl, rfl, rfl, rfl, rfl⟩
  unfold validateCompletion
  rw [hm, hmsg, htemp, hmax, hhist, hnr, hrp]
  have hmem : m ∈ models := by simpa using hmav
  simp [modelCheck, hmav, hmem, hmsgne,
    noRagOf_not_bool nrv hnrb, ragOverrideOf_not_str rpv hrps]

theorem invalid_no_rag_and_rag_override_ignored_witness :
    validateCompletion pyFloatBasic pyIntBasic ["m1"]
      [("model", .jstr "m1"), ("message", .jstr "hello"),
       ("no_rag", .jnum 1), ("rag_prompt_override", .jarr [])] =
      .accepted ⟨"m1", pyStrip (pyStr (.jstr "hello")), 0, none, false, none, []⟩ :=
  (invalid_no_rag_and_rag_override_ignored pyFloatBasic pyIntBasic ["m1"]
    [("model", .jstr "m1"), ("message", .jstr "hello"),
     ("no_rag", .jnum 1), ("rag_prompt_override", .jarr [])]
    "m1" (.jstr "hello") (.jnum 1) (.jarr [])
    rfl rfl rfl (by decide) rfl rfl rfl rfl
    (fun bl h => JVal.noConfusion h) rfl (fun s h => JVal.noConfusion h)).1

end WarcGpt
